import Mathlib

/-!
# Voice-chat session bridge: verification of the transcript consolidator,
# session registry and connection handler

Shallow embedding of `travel_concierge/voice_chat/unified_voice_server.py`,
`travel_concierge/voice_chat/adk_live_handler.py` and
`travel_concierge/voice_chat/websocket_server.py`.

Modelling conventions:
* Python `time.time()` floats become integral milliseconds (`ℤ`): every time
  computation in the source is addition, subtraction or comparison involving
  the constants 1.5 s and 10.0 s, so the scaling to milliseconds (1500, 10000)
  is exact.
* Byte strings become `List Nat`.
* Python dicts keyed by id become insertion-ordered association lists with
  Python's update-in-place / append-if-new semantics.
* The float comparison `length >= longest * 0.8` is embedded exactly as
  `4 * longest ≤ 5 * length`; the two agree for every candidate length that
  fits in well under 2^50, far beyond any transcript.
-/

namespace VoiceChat

/-! ## Transcript consolidator (`unified_voice_server.py`) -/

/-- One entry of `transcript_buffer`: the dict
`{'text': ..., 'timestamp': ..., 'length': len(text)}`.  The stored `'length'`
always equals `len(text)` at creation (line 166-170), so it is kept as the
derived value `text.length`. -/
structure Chunk where
  text : String
  timestamp : ℤ
  deriving Repr, DecidableEq

/-- The per-session consolidator fields of `active_sessions[session_id]`:
`transcript_buffer`, `last_transcript`, and the pending `consolidation_timer`,
the latter modelled by the instant at which the pending task's
`asyncio.sleep(1.5)` elapses. -/
structure ConsState where
  transcript_buffer : List Chunk
  last_transcript : String
  consolidation_timer : Option ℤ
  deriving Repr, DecidableEq

/-- Fresh consolidator state as initialised at session registration
(lines 519-522): empty buffer, `last_transcript = ''`, no pending timer. -/
def initConsState : ConsState := ⟨[], "", none⟩

/-- Python `max(x :: xs, key)`: the first element attaining the maximal key
(later elements replace the accumulator only when strictly greater). -/
def pymax {β : Type} [LinearOrder β] (key : Chunk → β) : Chunk → List Chunk → Chunk
  | x, [] => x
  | x, y :: ys => pymax key (if key x < key y then y else x) ys

/-- Python `str.strip()`: drop leading and trailing whitespace. -/
def pyStrip (s : String) : String :=
  ⟨((s.data.dropWhile Char.isWhitespace).reverse.dropWhile Char.isWhitespace).reverse⟩

/-- Python's substring test `needle in hay`, on character lists. -/
def substrOf (needle : List Char) : List Char → Bool
  | [] => needle.isEmpty
  | c :: t => needle.isPrefixOf (c :: t) || substrOf needle t

/-- Candidate selection inside `consolidate_and_send` (lines 189-197) on a
non-empty buffer `x :: xs`: the longest entry; then, if any entry has length
> 50, the most recent such entry replaces it whenever its length is within 80%
of the longest one. -/
def select_candidate (x : Chunk) (xs : List Chunk) : String :=
  let longest_transcript := (pymax (fun c => c.text.length) x xs).text
  match (x :: xs).filter (fun c => 50 < c.text.length) with
  | [] => longest_transcript
  | y :: ys =>
      let most_recent_long := pymax (fun c => c.timestamp) y ys
      if 4 * longest_transcript.length ≤ 5 * most_recent_long.text.length then
        most_recent_long.text
      else longest_transcript

/-- The body of `consolidate_and_send` (lines 178-239) after the 1.5 s sleep
has elapsed: returns the emitted transcript (if any) together with the new
buffer and the new `last_transcript`.  Dedup: a candidate equal to the last
sent transcript, or a substring of a non-empty last sent transcript, is
discarded silently and the buffer cleared. -/
def consolidate_and_send (buffer : List Chunk) (last_sent : String) :
    Option String × List Chunk × String :=
  match buffer with
  | [] => (none, buffer, last_sent)
  | x :: xs =>
      let c := select_candidate x xs
      if c = last_sent then (none, [], last_sent)
      else if last_sent ≠ "" ∧ substrOf c.data last_sent.data then (none, [], last_sent)
      else (some c, [], c)

/-- `process_transcript_with_buffering` (lines 144-250, happy path with the
session present): cancel any pending timer, append
`{'text': text, 'timestamp': now, 'length': len(text)}`, prune entries older
than 10 s (strictly), and (re)start a 1.5 s consolidation timer. -/
def process_transcript_with_buffering (s : ConsState) (now : ℤ) (text : String) :
    ConsState :=
  let buf := (s.transcript_buffer ++ [Chunk.mk text now]).filter
      (fun c => now - c.timestamp < 10000)
  { transcript_buffer := buf
    last_transcript := s.last_transcript
    consolidation_timer := some (now + 1500) }

/-- Upstream events delivered by `runner.run_live` to `listen_to_adk`, reduced
to the fields the handler inspects: a text part, an `inline_data` audio part
(raw bytes; the base64 encoding performed on send is not modelled), or the
`turn_complete` / `interrupted` state deltas. -/
inductive UpEvent where
  | textDelta (text : String)
  | audioDelta (data : List Nat)
  | turnComplete
  | interrupted
  deriving Repr, DecidableEq

/-- Type-discriminated JSON messages sent to the client over the websocket. -/
inductive OutMsg where
  | transcript (data : String)
  | audio_chunk (data : List Nat)
  | turn_complete
  | interrupted
  deriving Repr, DecidableEq

/-- `listen_to_adk` (lines 264-323), one upstream event arriving at time `t`:
text parts are stripped and skipped when shorter than 2 characters, the rest
go through the consolidation buffering (never sent immediately); audio parts
are sent immediately as `audio_chunk`; the `turn_complete` and `interrupted`
state deltas are sent immediately — with no consolidation flush. -/
def listen_to_adk_event (s : ConsState) (t : ℤ) (e : UpEvent) :
    ConsState × List OutMsg :=
  match e with
  | .textDelta txt =>
      let transcript_text := pyStrip txt
      if transcript_text.length < 2 then (s, [])
      else (process_transcript_with_buffering s t transcript_text, [])
  | .audioDelta d => (s, [.audio_chunk d])
  | .turnComplete => (s, [.turn_complete])
  | .interrupted => (s, [.interrupted])

/-- A pending consolidation task runs to completion: emit (or not) per
`consolidate_and_send`, store the new buffer and `last_transcript`; afterwards
no timer is pending. -/
def fire_consolidation (s : ConsState) : ConsState × List OutMsg :=
  match consolidate_and_send s.transcript_buffer s.last_transcript with
  | (out, buf, last) => (⟨buf, last, none⟩, (out.map OutMsg.transcript).toList)

/-- One scheduler event for a session: an upstream event handled by
`listen_to_adk`, a fragment delivered directly to
`process_transcript_with_buffering`, or an instant `t` at which the pending
consolidation timer fires when due (its `asyncio.sleep(1.5)` elapsed without
the task being cancelled). -/
inductive SchedEvent where
  | up (t : ℤ) (e : UpEvent)
  | frag (t : ℤ) (text : String)
  | tick (t : ℤ)
  deriving Repr, DecidableEq

/-- Small-step semantics of one scheduler event. -/
def sched_step (s : ConsState) : SchedEvent → ConsState × List OutMsg
  | .up t e => listen_to_adk_event s t e
  | .frag t txt => (process_transcript_with_buffering s t txt, [])
  | .tick t =>
      match s.consolidation_timer with
      | some d => if d ≤ t then fire_consolidation s else (s, [])
      | none => (s, [])

/-- Run a session over a time-ordered list of scheduler events, collecting the
messages sent to the client. -/
def sched_run (s : ConsState) : List SchedEvent → ConsState × List OutMsg
  | [] => (s, [])
  | ev :: evs =>
      let (s1, out1) := sched_step s ev
      let (s2, out2) := sched_run s1 evs
      (s2, out1 ++ out2)

/-- The `finally` cleanup of `websocket_endpoint` (lines 564-583): the pending
consolidation timer is cancelled and the session entry deleted; nothing is
flushed and nothing is sent to the client. -/
def websocket_cleanup (s : ConsState) : ConsState × List OutMsg :=
  ({ s with consolidation_timer := none }, [])

/-! ## Session registry (`adk_live_handler.py`, class `ADKLiveHandler`) -/

/-- The fields of one entry of `ADKLiveHandler.active_sessions` that the
registry logic inspects (`runner`, `session`, `live_request_queue`,
`live_events` and `conversation_started` are opaque handles never branched
on). -/
structure SessionInfo where
  session_id : String
  user_id : String
  created_at : ℤ
  is_active : Bool
  deriving Repr, DecidableEq

/-- The handler's registry: `active_sessions` (dict `session_id → info`,
modelled as an insertion-ordered list with unique keys maintained by the
operations), `user_sessions` (dict `user_id → session_id`) and the
`max_sessions` bound (10 in the source). -/
structure HandlerState where
  active_sessions : List SessionInfo
  user_sessions : List (String × String)
  max_sessions : Nat
  deriving Repr, DecidableEq

/-- Python dict assignment `active_sessions[sid] = info`: update in place when
the key is present, append otherwise. -/
def dictInsertSession (l : List SessionInfo) (info : SessionInfo) : List SessionInfo :=
  if l.any (fun i => i.session_id == info.session_id) then
    l.map (fun i => if i.session_id == info.session_id then info else i)
  else l ++ [info]

/-- Python dict assignment `user_sessions[u] = sid`. -/
def dictInsertUser (l : List (String × String)) (u sid : String) :
    List (String × String) :=
  if l.any (fun p => p.1 == u) then l.map (fun p => if p.1 == u then (u, sid) else p)
  else l ++ [(u, sid)]

/-- `close_session` (lines 359-393): an absent session logs a warning and
returns `True` (already closed); a present one is marked inactive, its live
request queue closed (errors swallowed), deleted from `active_sessions`, and
the *user's* `user_sessions` entry is deleted unconditionally — without
checking that it refers to the session being closed. -/
def close_session (h : HandlerState) (session_id : String) : HandlerState × Bool :=
  match h.active_sessions.find? (fun i => i.session_id == session_id) with
  | none => (h, true)
  | some info =>
      let actives := h.active_sessions.filter (fun i => i.session_id != session_id)
      let users :=
        if info.user_id ≠ "" ∧ h.user_sessions.any (fun p => p.1 == info.user_id) then
          h.user_sessions.filter (fun p => p.1 != info.user_id)
        else h.user_sessions
      ({ h with active_sessions := actives, user_sessions := users }, true)

/-- `get_user_session` (lines 409-411). -/
def get_user_session (h : HandlerState) (user_id : String) : Option String :=
  (h.user_sessions.find? (fun p => p.1 == user_id)).map (fun p => p.2)

/-- `get_session_status` presence part (lines 395-407). -/
def get_session_status (h : HandlerState) (session_id : String) : Option SessionInfo :=
  h.active_sessions.find? (fun i => i.session_id == session_id)

/-- `_cleanup_old_sessions` (lines 430-451): returns immediately unless the
session count *strictly* exceeds `max_sessions`; otherwise the sessions are
sorted stably by `created_at` and the oldest `count - max_sessions + 1` are
closed via `close_session`. -/
def cleanup_old_sessions (h : HandlerState) : HandlerState :=
  if h.active_sessions.length ≤ h.max_sessions then h
  else
    let sorted := h.active_sessions.mergeSort (fun a b => a.created_at ≤ b.created_at)
    let toClose := sorted.take (h.active_sessions.length - h.max_sessions + 1)
    toClose.foldl (fun st info => (close_session st info.session_id).1) h

/-- `create_auto_session` (lines 111-183), happy path: run
`_cleanup_old_sessions`, then register a session with the freshly generated
`session_id` (passed in, like `created_at = now`) in both maps.  The user's
possibly existing previous session is neither looked up nor closed; only the
`user_sessions` entry is overwritten. -/
def create_auto_session (h : HandlerState) (user_id session_id : String) (now : ℤ) :
    HandlerState :=
  let h := cleanup_old_sessions h
  let info : SessionInfo :=
    { session_id := session_id, user_id := user_id, created_at := now, is_active := true }
  { h with
    active_sessions := dictInsertSession h.active_sessions info
    user_sessions := dictInsertUser h.user_sessions user_id session_id }

/-- `process_audio_input` (lines 209-251): unknown session → `False` (no
recreation); a registered but *inactive* session is reactivated
(`is_active = True`, "🔄 Reactivated session") before the audio blob is
forwarded, returning `True`.  The `live_request_queue` of a registered session
is always present (set at creation, never removed), so the falsy-queue guard
never fires and is not modelled. -/
def process_audio_input (h : HandlerState) (session_id : String) :
    HandlerState × Bool :=
  match h.active_sessions.find? (fun i => i.session_id == session_id) with
  | none => (h, false)
  | some info =>
      if info.is_active then (h, true)
      else
        ({ h with active_sessions := (h.active_sessions.map (fun i =>
              if i.session_id == session_id then { i with is_active := true } else i)) },
         true)

/-- `process_text_input` (lines 454-479): succeeds iff the session is
registered; the text is then pushed to its live queue. -/
def process_text_input (h : HandlerState) (session_id : String) : Bool :=
  (h.active_sessions.find? (fun i => i.session_id == session_id)).isSome

/-! ## Connection handler (`websocket_server.py`, class `VoiceWebSocketServer`) -/

/-- Parsed inbound JSON control/text messages, as dispatched by
`handle_text_message`: `type`-tagged messages, JSON audio frames carrying an
`audio/pcm` `mime_type` (with an optional `data` field, `none` when absent or
empty), and unrecognized shapes (logged and ignored). -/
inductive ClientMsg where
  | ping
  | get_status
  | stop_session
  | text_input (text : String)
  | json_audio (data : Option (List Nat))
  | unknown
  deriving Repr, DecidableEq

/-- One inbound websocket frame: binary audio, or a text frame whose
`json.loads` result is `some` parsed message or `none` on a
`json.JSONDecodeError`. -/
inductive Frame where
  | binary (data : List Nat)
  | text (parsed : Option ClientMsg)
  deriving Repr, DecidableEq

/-- Messages the server sends to the client. -/
inductive ServerMsg where
  | connection_established
  | auto_session_started (session_id user_id : String)
  | pong (timestamp : ℤ)
  | status_response
  | session_stopped (session_id : String)
  | error (message : String)
  deriving Repr, DecidableEq

/-- Per-connection state: the shared `adk_live_handler` registry and this
websocket's `websocket_sessions` entry. -/
structure ConnState where
  handler : HandlerState
  ws_session : Option String
  deriving Repr, DecidableEq

/-- `handle_stop_session` (lines 185-205): the session id is looked up in
`websocket_sessions` (and the entry is *not* removed); when `close_session`
reports success, `session_stopped` is sent. -/
def handle_stop_session (st : ConnState) : ConnState × List ServerMsg :=
  match st.ws_session with
  | none => (st, [.error "No active session to stop"])
  | some sid =>
      let (h, ok) := close_session st.handler sid
      if ok then ({ st with handler := h }, [.session_stopped sid])
      else ({ st with handler := h }, [.error "Failed to stop session"])

/-- `handle_get_status` (lines 207-220). -/
def handle_get_status (st : ConnState) : ConnState × List ServerMsg :=
  (st, [.status_response])

/-- `handle_text_input` (lines 370-396). -/
def handle_text_input (st : ConnState) (text : String) : ConnState × List ServerMsg :=
  match st.ws_session with
  | none => (st, [.error "No active session for text input"])
  | some sid =>
      if text = "" then (st, [.error "No text in message"])
      else if process_text_input st.handler sid then (st, [])
      else (st, [.error "Failed to process text input"])

/-- `handle_json_audio_message` (lines 222-254): audio-processing failures are
deliberately not reported to the client ("avoid spam"). -/
def handle_json_audio_message (st : ConnState) (data : Option (List Nat)) :
    ConnState × List ServerMsg :=
  match st.ws_session with
  | none => (st, [.error "No active session for audio data"])
  | some sid =>
      match data with
      | none => (st, [.error "No audio data in message"])
      | some _ =>
          let (h, _) := process_audio_input st.handler sid
          ({ st with handler := h }, [])

/-- `handle_audio_data` (lines 256-276): binary audio frames; processing
failures are not reported to the client. -/
def handle_audio_data (st : ConnState) : ConnState × List ServerMsg :=
  match st.ws_session with
  | none => (st, [.error "No active session for audio data"])
  | some sid =>
      let (h, _) := process_audio_input st.handler sid
      ({ st with handler := h }, [])

/-- `handle_text_message` (lines 165-183): dispatch on the `type` field;
unrecognized shapes are logged and ignored, with no error sent. -/
def handle_text_message (st : ConnState) (t : ℤ) (m : ClientMsg) :
    ConnState × List ServerMsg :=
  match m with
  | .ping => (st, [.pong t])
  | .get_status => handle_get_status st
  | .stop_session => handle_stop_session st
  | .text_input text => handle_text_input st text
  | .json_audio data => handle_json_audio_message st data
  | .unknown => (st, [])

/-- The try/except body of the receive loop of `handle_client`
(lines 142-155): binary frames go to `handle_audio_data`; text frames are
parsed, and a `json.JSONDecodeError` is caught and reported as an `error`
message — only that frame is dropped. -/
def handle_frame (st : ConnState) (t : ℤ) (f : Frame) : ConnState × List ServerMsg :=
  match f with
  | .binary _ => handle_audio_data st
  | .text none => (st, [.error "Invalid JSON"])
  | .text (some m) => handle_text_message st t m

/-- The receive loop of `handle_client`: frames are processed in order; no
frame ends the loop (only transport closure does). -/
def handle_client_loop (st : ConnState) : List (ℤ × Frame) → ConnState × List ServerMsg
  | [] => (st, [])
  | (t, f) :: rest =>
      let (s1, out1) := handle_frame st t f
      let (s2, out2) := handle_client_loop s1 rest
      (s2, out1 ++ out2)

/-! ## Bridge receive loop (`websocket_adk_bridge.py`, lines 278-301)

The bridge's `handle_client` has the same parse-and-recover shape; its
`_handle_message` dispatch is kept abstract as a parameter `handle`, so the
statement below holds for the actual dispatch as a special case. -/

/-- The receive loop of the bridge's `handle_client`: each text frame is
`json.loads`-parsed; a `JSONDecodeError` sends `error "Invalid JSON format"`
and the loop continues with the next frame. -/
def bridge_client_loop {σ μ : Type} (handle : σ → μ → σ × List ServerMsg)
    (st : σ) : List (Option μ) → σ × List ServerMsg
  | [] => (st, [])
  | none :: rest =>
      let (s2, out2) := bridge_client_loop handle st rest
      (s2, .error "Invalid JSON format" :: out2)
  | some m :: rest =>
      let (s1, out1) := handle st m
      let (s2, out2) := bridge_client_loop handle s1 rest
      (s2, out1 ++ out2)

/-! ## Derived notions used in the statements -/

/-- The maximal `text.length` over a buffer (0 on an empty buffer). -/
def maxLen (l : List Chunk) : ℕ := (l.map (fun c => c.text.length)).foldr max 0

/-- The entries of the buffer whose length exceeds 50, in order
(`recent_long_transcripts` in the source). -/
def recent_long_transcripts (l : List Chunk) : List Chunk :=
  l.filter (fun c => 50 < c.text.length)

/-- The upstream script of the spec's §8 scenario, as scheduler events:
`TextDelta "Hi"`, `TextDelta "Hi there"`, an audio delta, then
`TurnComplete`, arriving 0.1 s apart. -/
def turnCompleteScript : List SchedEvent :=
  [SchedEvent.up 0 (UpEvent.textDelta "Hi"),
   SchedEvent.up 100 (UpEvent.textDelta "Hi there"),
   SchedEvent.up 200 (UpEvent.audioDelta [1, 2]),
   SchedEvent.up 300 UpEvent.turnComplete]

/-- The scheduler events of a fragment sequence delivered to the consolidator:
just before each fragment arrives the pending timer gets the chance to fire
(`tick`), and afterwards the timer restarted by the last fragment may fire. -/
def consolidator_events (frags : List (ℤ × String)) : List SchedEvent :=
  frags.flatMap (fun p => [SchedEvent.tick p.1, SchedEvent.frag p.1 p.2])

/-- The last fragment of a fragment list (`(0, "")` on an empty list); a
proof-free companion of `List.getLast`. -/
def lastFrag : List (ℤ × String) → ℤ × String
  | [] => (0, "")
  | [p] => p
  | _ :: q :: rest => lastFrag (q :: rest)

/-! ## Helper lemmas -/

theorem pymax_mem {β : Type} [LinearOrder β] (key : Chunk → β) (xs : List Chunk)
    (x : Chunk) : pymax key x xs ∈ x :: xs := by
  induction xs generalizing x with
  | nil => simp [pymax]
  | cons y ys ih =>
      rw [pymax]
      have h := ih (if key x < key y then y else x)
      rcases List.mem_cons.mp h with h1 | h1
      · rw [h1]
        by_cases hxy : key x < key y <;> simp [hxy]
      · exact List.mem_cons_of_mem _ (List.mem_cons_of_mem _ h1)

theorem le_pymax {β : Type} [LinearOrder β] (key : Chunk → β) (xs : List Chunk)
    (x : Chunk) : ∀ z ∈ x :: xs, key z ≤ key (pymax key x xs) := by
  induction xs generalizing x with
  | nil =>
      intro z hz
      rw [List.mem_singleton] at hz
      subst hz
      simp [pymax]
  | cons y ys ih =>
      intro z hz
      rw [pymax]
      have hx : key x ≤ key (if key x < key y then y else x) := by
        by_cases hxy : key x < key y
        · rw [if_pos hxy]; exact le_of_lt hxy
        · rw [if_neg hxy]
      have hy : key y ≤ key (if key x < key y then y else x) := by
        by_cases hxy : key x < key y
        · rw [if_pos hxy]
        · rw [if_neg hxy]; exact le_of_not_lt hxy
      rcases List.mem_cons.mp hz with h1 | h1
      · subst h1
        exact le_trans hx (ih _ _ (List.mem_cons_self _ _))
      rcases List.mem_cons.mp h1 with h2 | h2
      · subst h2
        exact le_trans hy (ih _ _ (List.mem_cons_self _ _))
      · exact ih _ z (List.mem_cons_of_mem _ h2)

theorem le_maxLen (l : List Chunk) (c : Chunk) (hc : c ∈ l) :
    c.text.length ≤ maxLen l := by
  induction l with
  | nil => cases hc
  | cons a t ih =>
      rw [maxLen, List.map_cons, List.foldr_cons]
      rcases List.mem_cons.mp hc with h1 | h1
      · subst h1; exact le_max_left _ _
      · exact le_trans (ih h1) (le_max_right _ _)

theorem maxLen_le (l : List Chunk) (b : ℕ) (h : ∀ c ∈ l, c.text.length ≤ b) :
    maxLen l ≤ b := by
  induction l with
  | nil => simp [maxLen]
  | cons a t ih =>
      rw [maxLen, List.map_cons, List.foldr_cons]
      exact max_le (h a (List.mem_cons_self _ _))
        (ih (fun c hc => h c (List.mem_cons_of_mem _ hc)))

theorem pymax_len_eq (x : Chunk) (xs : List Chunk) :
    (pymax (fun c => c.text.length) x xs).text.length = maxLen (x :: xs) :=
  le_antisymm (le_maxLen _ _ (pymax_mem _ xs x))
    (maxLen_le _ _ (fun c hc => le_pymax (fun c => c.text.length) xs x c hc))

theorem substrOf_nil (needle : List Char) : substrOf needle [] = needle.isEmpty := rfl

theorem isPrefixOf_length_lt {l₁ l₂ : List Char} (h : l₁.isPrefixOf l₂ = true)
    (hne : l₁ ≠ l₂) : l₁.length < l₂.length := by
  induction l₁ generalizing l₂ with
  | nil =>
      cases l₂ with
      | nil => exact absurd rfl hne
      | cons b bs => simp
  | cons a as ih =>
      cases l₂ with
      | nil => simp [List.isPrefixOf] at h
      | cons b bs =>
          rw [List.isPrefixOf, Bool.and_eq_true, beq_iff_eq] at h
          obtain ⟨hab, hpre⟩ := h
          subst hab
          have htail : as ≠ bs := fun hcontra => hne (by rw [hcontra])
          simpa using ih hpre htail

theorem find?_beq_filter_bne {α : Type} (key : α → String) (l : List α) (s : String) :
    (l.filter (fun x => key x != s)).find? (fun x => key x == s) = none := by
  apply List.find?_eq_none.mpr
  intro x hx
  have h2 := (List.mem_filter.mp hx).2
  simp only [bne_iff_ne, ne_eq] at h2
  simp [h2]

theorem pairwise_rel_getLast {α : Type} {R : α → α → Prop} (l : List α) (hl : l ≠ [])
    (hp : List.Pairwise R l) :
    ∀ z ∈ l, z = l.getLast hl ∨ R z (l.getLast hl) := by
  induction l with
  | nil => exact absurd rfl hl
  | cons a t ih =>
      intro z hz
      cases t with
      | nil =>
          rw [List.mem_singleton] at hz
          left
          simp [hz, List.getLast]
      | cons b t2 =>
          rw [List.getLast_cons (by simp : (b :: t2) ≠ [])]
          rcases List.mem_cons.mp hz with h1 | h1
          · subst h1
            right
            exact (List.pairwise_cons.mp hp).1 _ (List.getLast_mem _)
          · exact ih (by simp) (List.pairwise_cons.mp hp).2 z h1

theorem chain_lt_le_getLast {α : Type} {f : α → ℤ} (a : α) (l : List α) (hl : l ≠ [])
    (hc : List.Chain' (fun x y => f x < f y) (a :: l)) :
    f a ≤ f (l.getLast hl) := by
  induction l generalizing a with
  | nil => exact absurd rfl hl
  | cons b t ih =>
      have hab : f a < f b := (List.chain'_cons.mp hc).1
      have hbt : List.Chain' (fun x y => f x < f y) (b :: t) := (List.chain'_cons.mp hc).2
      cases t with
      | nil => simpa [List.getLast] using le_of_lt hab
      | cons c t2 =>
          rw [List.getLast_cons (by simp : (c :: t2) ≠ [])]
          exact le_trans (le_of_lt hab) (ih b (by simp) hbt)

theorem sched_run_cons (s : ConsState) (ev : SchedEvent) (evs : List SchedEvent) :
    sched_run s (ev :: evs) =
      ((sched_run (sched_step s ev).1 evs).1,
       (sched_step s ev).2 ++ (sched_run (sched_step s ev).1 evs).2) := rfl

theorem sched_run_append (s : ConsState) (l₁ l₂ : List SchedEvent) :
    sched_run s (l₁ ++ l₂) =
      ((sched_run (sched_run s l₁).1 l₂).1,
       (sched_run s l₁).2 ++ (sched_run (sched_run s l₁).1 l₂).2) := by
  induction l₁ generalizing s with
  | nil => simp [sched_run]
  | cons ev evs ih =>
      rw [List.cons_append, sched_run_cons, ih, sched_run_cons]
      simp [List.append_assoc]

theorem dictInsertSession_fresh (l : List SessionInfo) (info : SessionInfo)
    (hfresh : l.all (fun i => i.session_id != info.session_id) = true) :
    dictInsertSession l info = l ++ [info] := by
  have h : ¬ (l.any (fun i => i.session_id == info.session_id) = true) := by
    intro hany
    rcases List.any_eq_true.mp hany with ⟨x, hx, hbx⟩
    have := List.all_eq_true.mp hfresh x hx
    rw [bne_iff_ne] at this
    exact this (by simpa using hbx)
  unfold dictInsertSession
  rw [if_neg h]

theorem cleanup_old_sessions_le (h : HandlerState)
    (hcap : h.active_sessions.length ≤ h.max_sessions) :
    cleanup_old_sessions h = h := by
  unfold cleanup_old_sessions
  rw [if_pos hcap]

theorem create_auto_session_no_evict (h : HandlerState) (u sid : String) (now : ℤ)
    (hcap : h.active_sessions.length ≤ h.max_sessions)
    (hfresh : h.active_sessions.all (fun i => i.session_id != sid) = true) :
    (create_auto_session h u sid now).active_sessions
        = h.active_sessions ++ [⟨sid, u, now, true⟩] ∧
    (create_auto_session h u sid now).user_sessions
        = dictInsertUser h.user_sessions u sid ∧
    (create_auto_session h u sid now).max_sessions = h.max_sessions := by
  unfold create_auto_session
  rw [cleanup_old_sessions_le h hcap]
  exact ⟨dictInsertSession_fresh _ _ hfresh, rfl, rfl⟩

theorem find?_update_user (l : List (String × String)) (u sid : String)
    (hany : l.any (fun p => p.1 == u) = true) :
    (l.map (fun p => if p.1 == u then (u, sid) else p)).find? (fun p => p.1 == u)
      = some (u, sid) := by
  induction l with
  | nil => simp at hany
  | cons a t ih =>
      simp only [List.map_cons]
      by_cases ha : (a.1 == u) = true
      · rw [if_pos ha]
        exact List.find?_cons_of_pos _ (by simp)
      · rw [if_neg ha, @List.find?_cons_of_neg _ (fun p => p.1 == u) a _ ha]
        apply ih
        rcases List.any_eq_true.mp hany with ⟨x, hx, hpx⟩
        rcases List.mem_cons.mp hx with h1 | h1
        · exact absurd (h1 ▸ hpx) ha
        · exact List.any_eq_true.mpr ⟨x, h1, hpx⟩

theorem find?_dictInsertUser (l : List (String × String)) (u sid : String) :
    (dictInsertUser l u sid).find? (fun p => p.1 == u) = some (u, sid) := by
  unfold dictInsertUser
  by_cases hany : l.any (fun p => p.1 == u) = true
  · rw [if_pos hany]
    exact find?_update_user l u sid hany
  · rw [if_neg hany, List.find?_append]
    have hnone : l.find? (fun p => p.1 == u) = none := by
      apply List.find?_eq_none.mpr
      intro x hx
      intro hpx
      exact hany (List.any_eq_true.mpr ⟨x, hx, hpx⟩)
    rw [hnone, List.find?_singleton]
    simp

theorem get_user_session_create (h : HandlerState) (u sid : String) (now : ℤ)
    (hcap : h.active_sessions.length ≤ h.max_sessions) :
    get_user_session (create_auto_session h u sid now) u = some sid := by
  unfold create_auto_session get_user_session
  rw [cleanup_old_sessions_le h hcap]
  simp only []
  rw [find?_dictInsertUser]
  rfl

theorem close_session_snd (h : HandlerState) (sid : String) :
    (close_session h sid).2 = true := by
  cases hf : h.active_sessions.find? (fun i => i.session_id == sid) with
  | none => simp [close_session, hf]
  | some info => simp [close_session, hf]

theorem close_session_absent (h : HandlerState) (sid : String)
    (hf : h.active_sessions.find? (fun i => i.session_id == sid) = none) :
    close_session h sid = (h, true) := by
  simp [close_session, hf]

theorem close_session_found_active (h : HandlerState) (sid : String)
    (info : SessionInfo)
    (hf : h.active_sessions.find? (fun i => i.session_id == sid) = some info) :
    (close_session h sid).1.active_sessions
      = h.active_sessions.filter (fun i => i.session_id != sid) := by
  simp [close_session, hf]

theorem close_session_found_users (h : HandlerState) (sid : String)
    (info : SessionInfo)
    (hf : h.active_sessions.find? (fun i => i.session_id == sid) = some info) :
    (close_session h sid).1.user_sessions
      = if info.user_id ≠ "" ∧ h.user_sessions.any (fun p => p.1 == info.user_id)
        then h.user_sessions.filter (fun p => p.1 != info.user_id)
        else h.user_sessions := by
  simp [close_session, hf]

theorem find?_fst_filter (l : List (String × String)) (s : String) :
    (l.filter (fun p => p.1 != s)).find? (fun p => p.1 == s) = none :=
  find?_beq_filter_bne (fun p => p.1) l s

theorem find?_sid_filter (l : List SessionInfo) (s : String) :
    (l.filter (fun i => i.session_id != s)).find? (fun i => i.session_id == s) = none :=
  find?_beq_filter_bne (fun i => i.session_id) l s

/-! ## Claim theorems -/

/-- C1 (counterexample): for the scripted upstream
`[TextDelta "Hi", TextDelta "Hi there", AudioDelta, TurnComplete]`, handling
the `TurnComplete` event does *not* execute an immediate consolidation flush:
after the whole script the client has received no `transcript` at all, the
buffer still holds both fragments, and the 1.5 s timer restarted by the last
fragment is still pending. -/
theorem turn_complete_no_flush_counterexample :
    (sched_run initConsState turnCompleteScript).2
      = [OutMsg.audio_chunk [1, 2], OutMsg.turn_complete] ∧
    (sched_run initConsState turnCompleteScript).1.transcript_buffer
      = [⟨"Hi", 0⟩, ⟨"Hi there", 100⟩] ∧
    (sched_run initConsState turnCompleteScript).1.consolidation_timer
      = some 1600 := by
  decide

/-- C1 (amended): on a `TurnComplete` event the server emits `turn_complete`
immediately but performs no consolidation flush — the consolidator state is
left untouched, so the pending 1.5 s timer keeps running; the session-closing
cleanup likewise cancels the pending timer without flushing or emitting
anything; for the scripted upstream the client still receives exactly one
`Transcript ("Hi there")`, but only when the 1.5 s timer fires (at 0.1 s +
1.5 s), not at `TurnComplete`. -/
theorem turn_complete_emits_without_flush :
    (∀ (s : ConsState) (t : ℤ),
        listen_to_adk_event s t UpEvent.turnComplete = (s, [OutMsg.turn_complete])) ∧
    (∀ s : ConsState,
        (websocket_cleanup s).2 = [] ∧
        (websocket_cleanup s).1.consolidation_timer = none ∧
        (websocket_cleanup s).1.transcript_buffer = s.transcript_buffer ∧
        (websocket_cleanup s).1.last_transcript = s.last_transcript) ∧
    ((sched_run initConsState (turnCompleteScript ++ [SchedEvent.tick 1600])).2
      = [OutMsg.audio_chunk [1, 2], OutMsg.turn_complete,
         OutMsg.transcript "Hi there"]) :=
  ⟨fun _ _ => rfl, fun _ => ⟨rfl, rfl, rfl, rfl⟩, by decide⟩

/-- C2 (counterexample): with `max_sessions = 10` fully occupied, creating an
11th session for a new user evicts nothing: the oldest session `s0` is still
registered and the registry holds 11 > 10 sessions after the create. -/
theorem create_at_capacity_counterexample :
    ((create_auto_session
        ⟨[⟨"s0", "u0", 0, true⟩, ⟨"s1", "u1", 1, true⟩, ⟨"s2", "u2", 2, true⟩,
          ⟨"s3", "u3", 3, true⟩, ⟨"s4", "u4", 4, true⟩, ⟨"s5", "u5", 5, true⟩,
          ⟨"s6", "u6", 6, true⟩, ⟨"s7", "u7", 7, true⟩, ⟨"s8", "u8", 8, true⟩,
          ⟨"s9", "u9", 9, true⟩],
         [("u0", "s0"), ("u1", "s1"), ("u2", "s2"), ("u3", "s3"), ("u4", "s4"),
          ("u5", "s5"), ("u6", "s6"), ("u7", "s7"), ("u8", "s8"), ("u9", "s9")],
         10⟩
        "u10" "s10" 100).active_sessions.length = 11) ∧
    ((create_auto_session
        ⟨[⟨"s0", "u0", 0, true⟩, ⟨"s1", "u1", 1, true⟩, ⟨"s2", "u2", 2, true⟩,
          ⟨"s3", "u3", 3, true⟩, ⟨"s4", "u4", 4, true⟩, ⟨"s5", "u5", 5, true⟩,
          ⟨"s6", "u6", 6, true⟩, ⟨"s7", "u7", 7, true⟩, ⟨"s8", "u8", 8, true⟩,
          ⟨"s9", "u9", 9, true⟩],
         [("u0", "s0"), ("u1", "s1"), ("u2", "s2"), ("u3", "s3"), ("u4", "s4"),
          ("u5", "s5"), ("u6", "s6"), ("u7", "s7"), ("u8", "s8"), ("u9", "s9")],
         10⟩
        "u10" "s10" 100).active_sessions.any (fun i => i.session_id == "s0") = true) := by
  decide

/-- C2 (amended): `create_auto_session` evicts only when the pre-create count
*strictly exceeds* `max_sessions` (the cleanup returns immediately on
`count ≤ max_sessions`); from any at-or-below-capacity registry the new
session is simply appended with no eviction, so after a create from a full
registry the registry holds `max_sessions + 1` sessions (11 with
`max_sessions = 10`, as the concrete conjunct shows). -/
theorem create_evicts_only_above_capacity :
    (∀ (h : HandlerState) (u sid : String) (now : ℤ),
        h.active_sessions.length ≤ h.max_sessions →
        h.active_sessions.all (fun i => i.session_id != sid) = true →
        (create_auto_session h u sid now).active_sessions
          = h.active_sessions ++ [⟨sid, u, now, true⟩]) ∧
    ((create_auto_session
        ⟨[⟨"s0", "u0", 0, true⟩, ⟨"s1", "u1", 1, true⟩, ⟨"s2", "u2", 2, true⟩,
          ⟨"s3", "u3", 3, true⟩, ⟨"s4", "u4", 4, true⟩, ⟨"s5", "u5", 5, true⟩,
          ⟨"s6", "u6", 6, true⟩, ⟨"s7", "u7", 7, true⟩, ⟨"s8", "u8", 8, true⟩,
          ⟨"s9", "u9", 9, true⟩],
         [("u0", "s0"), ("u1", "s1"), ("u2", "s2"), ("u3", "s3"), ("u4", "s4"),
          ("u5", "s5"), ("u6", "s6"), ("u7", "s7"), ("u8", "s8"), ("u9", "s9")],
         10⟩
        "u10" "s10" 100).active_sessions.length = 11) :=
  ⟨fun h u sid now hcap hfresh =>
      (create_auto_session_no_evict h u sid now hcap hfresh).1,
   by decide⟩

/-- C2 (witness): the general part of the amended claim, applied to a
one-session registry at capacity 1: the create appends and evicts nothing. -/
theorem create_evicts_only_above_capacity_witness :
    (create_auto_session ⟨[⟨"a", "u", 0, true⟩], [("u", "a")], 1⟩ "v" "b" 5).active_sessions
      = [⟨"a", "u", 0, true⟩] ++ [⟨"b", "v", 5, true⟩] :=
  create_evicts_only_above_capacity.1 ⟨[⟨"a", "u", 0, true⟩], [("u", "a")], 1⟩
    "v" "b" 5 (by decide) (by decide)

/-- C3 (counterexample): a second `create_auto_session` for the same user `u`
does not evict the first session: both `s1` and `s2` end up registered in
`active_sessions` with `user_id = "u"`, so more than one registered session
exists for the user; only the `user_sessions` map now points to `s2`. -/
theorem second_create_same_user_counterexample :
    ((create_auto_session ⟨[⟨"s1", "u", 0, true⟩], [("u", "s1")], 10⟩ "u" "s2" 5).active_sessions
        = [⟨"s1", "u", 0, true⟩, ⟨"s2", "u", 5, true⟩]) ∧
    (get_user_session
        (create_auto_session ⟨[⟨"s1", "u", 0, true⟩], [("u", "s1")], 10⟩ "u" "s2" 5) "u"
        = some "s2") := by
  decide

/-- C3 (amended): a second `create_auto_session` for a user who already has a
registered session overwrites only the `user_sessions` mapping (which then
points to the new session): the previous session is neither closed nor removed
from `active_sessions`, so the registry can hold several sessions of the same
user; only the user → session map is single-valued. -/
theorem second_create_overwrites_mapping_only (h : HandlerState) (u sid : String)
    (now : ℤ) (j : SessionInfo)
    (hcap : h.active_sessions.length ≤ h.max_sessions)
    (hfresh : h.active_sessions.all (fun i => i.session_id != sid) = true)
    (hj : j ∈ h.active_sessions) (_hju : j.user_id = u) :
    j ∈ (create_auto_session h u sid now).active_sessions ∧
    (⟨sid, u, now, true⟩ : SessionInfo) ∈ (create_auto_session h u sid now).active_sessions ∧
    get_user_session (create_auto_session h u sid now) u = some sid := by
  obtain ⟨hact, -, -⟩ := create_auto_session_no_evict h u sid now hcap hfresh
  refine ⟨?_, ?_, ?_⟩
  · rw [hact]
    exact List.mem_append_left _ hj
  · rw [hact]
    exact List.mem_append_right _ (by simp)
  · exact get_user_session_create h u sid now hcap

/-- C3 (witness): the amended claim at a concrete one-session registry. -/
theorem second_create_overwrites_mapping_only_witness :
    (⟨"s1", "u", 0, true⟩ : SessionInfo)
        ∈ (create_auto_session ⟨[⟨"s1", "u", 0, true⟩], [("u", "s1")], 10⟩ "u" "s2" 5).active_sessions ∧
    (⟨"s2", "u", 5, true⟩ : SessionInfo)
        ∈ (create_auto_session ⟨[⟨"s1", "u", 0, true⟩], [("u", "s1")], 10⟩ "u" "s2" 5).active_sessions ∧
    get_user_session (create_auto_session ⟨[⟨"s1", "u", 0, true⟩], [("u", "s1")], 10⟩ "u" "s2" 5) "u"
        = some "s2" :=
  second_create_overwrites_mapping_only ⟨[⟨"s1", "u", 0, true⟩], [("u", "s1")], 10⟩
    "u" "s2" 5 ⟨"s1", "u", 0, true⟩ (by decide) (by decide) (by decide) rfl

/-- C5: at every flush of a non-empty buffer, a candidate that equals
`last_transcript` or is a substring of it is discarded silently: no
`transcript` is emitted, the buffer is cleared, and `last_transcript` is
unchanged. -/
theorem flush_discards_duplicate_or_substring (x : Chunk) (xs : List Chunk)
    (last_sent : String)
    (hdup : select_candidate x xs = last_sent ∨
            substrOf (select_candidate x xs).data last_sent.data = true) :
    consolidate_and_send (x :: xs) last_sent = (none, [], last_sent) := by
  have hred : consolidate_and_send (x :: xs) last_sent =
      (if select_candidate x xs = last_sent then (none, [], last_sent)
       else if last_sent ≠ "" ∧ substrOf (select_candidate x xs).data last_sent.data = true
       then (none, [], last_sent)
       else (some (select_candidate x xs), [], select_candidate x xs)) := rfl
  rw [hred]
  by_cases heq : select_candidate x xs = last_sent
  · rw [if_pos heq]
  · rcases hdup with h | h
    · exact absurd h heq
    · have hlast : last_sent ≠ "" := by
        intro hnil
        subst hnil
        rw [show ("" : String).data = [] from rfl, substrOf_nil] at h
        exact heq (String.ext (List.isEmpty_iff.mp h))
      rw [if_neg heq, if_pos ⟨hlast, h⟩]

/-- C5 (witness): after "Hello world" was emitted, a later best candidate
"Hello" (a substring) produces no new transcript and the buffer is cleared. -/
theorem flush_discards_duplicate_or_substring_witness :
    consolidate_and_send [⟨"Hello", 0⟩] "Hello world" = (none, [], "Hello world") :=
  flush_discards_duplicate_or_substring ⟨"Hello", 0⟩ [] "Hello world"
    (Or.inr (by decide))

/-- C7 (counterexample): two consecutive `stop_session` commands on the same
connection each produce a `session_stopped` message: the second call is *not*
observably identical to silence, because the websocket → session mapping is
kept and `close_session` reports success for the already-closed session. -/
theorem stop_session_twice_counterexample :
    ((handle_stop_session ⟨⟨[⟨"s", "u", 0, true⟩], [("u", "s")], 10⟩, some "s"⟩).2
        = [ServerMsg.session_stopped "s"]) ∧
    ((handle_stop_session
        (handle_stop_session ⟨⟨[⟨"s", "u", 0, true⟩], [("u", "s")], 10⟩, some "s"⟩).1).2
        = [ServerMsg.session_stopped "s"]) := by
  decide

/-- C7 (amended): at the registry level `close_session` is idempotent — a
second close of the same session leaves the state unchanged and reports
success, with cleanup errors swallowed — but `handle_stop_session` sends
`session_stopped` whenever `close_session` reports success and never removes
the websocket → session mapping, so a second `stop_session` command yields a
duplicate `session_stopped` rather than a no-op. -/
theorem close_session_idempotent_stop_repeats :
    (∀ (h : HandlerState) (sid : String),
        close_session (close_session h sid).1 sid = ((close_session h sid).1, true)) ∧
    (∀ (st : ConnState) (sid : String), st.ws_session = some sid →
        (handle_stop_session st).2 = [ServerMsg.session_stopped sid] ∧
        (handle_stop_session st).1.ws_session = some sid) := by
  constructor
  · intro h sid
    cases hf : h.active_sessions.find? (fun i => i.session_id == sid) with
    | none =>
        have h1 : close_session h sid = (h, true) := close_session_absent _ _ hf
        rw [h1]
        exact h1
    | some info =>
        apply close_session_absent
        rw [close_session_found_active h sid info hf]
        exact find?_sid_filter _ _
  · intro st sid hws
    rcases hcs : close_session st.handler sid with ⟨h2, ok⟩
    have hok : ok = true := by
      rw [← close_session_snd st.handler sid, hcs]
    subst hok
    constructor
    · simp [handle_stop_session, hws, hcs]
    · simp [handle_stop_session, hws, hcs]

/-- C7 (witness): the amended claim at a concrete one-session state. -/
theorem close_session_idempotent_stop_repeats_witness :
    (close_session (close_session ⟨[⟨"s", "u", 0, true⟩], [("u", "s")], 10⟩ "s").1 "s"
        = ((close_session ⟨[⟨"s", "u", 0, true⟩], [("u", "s")], 10⟩ "s").1, true)) ∧
    ((handle_stop_session ⟨⟨[], [], 10⟩, some "s"⟩).2 = [ServerMsg.session_stopped "s"] ∧
     (handle_stop_session ⟨⟨[], [], 10⟩, some "s"⟩).1.ws_session = some "s") :=
  ⟨close_session_idempotent_stop_repeats.1 ⟨[⟨"s", "u", 0, true⟩], [("u", "s")], 10⟩ "s",
   close_session_idempotent_stop_repeats.2 ⟨⟨[], [], 10⟩, some "s"⟩ "s" rfl⟩

/-- C8: a malformed-JSON text frame makes the server emit a typed `error`
message while the connection stays open and only that frame is dropped: the
remaining frames are processed exactly as they would be from the unchanged
state, and the session is not terminated.  The same local recovery holds for
the bridge server's receive loop, whatever its dispatch of well-formed
messages does. -/
theorem malformed_json_frame_recovery :
    (∀ (st : ConnState) (t : ℤ) (rest : List (ℤ × Frame)),
      handle_client_loop st ((t, Frame.text none) :: rest) =
        ((handle_client_loop st rest).1,
         ServerMsg.error "Invalid JSON" :: (handle_client_loop st rest).2)) ∧
    (∀ (σ μ : Type) (handle : σ → μ → σ × List ServerMsg) (st : σ)
        (rest : List (Option μ)),
      bridge_client_loop handle st (none :: rest) =
        ((bridge_client_loop handle st rest).1,
         ServerMsg.error "Invalid JSON format" :: (bridge_client_loop handle st rest).2)) :=
  ⟨fun _ _ _ => rfl, fun _ _ _ _ _ => rfl⟩

/-- C9 (counterexample): an inbound audio frame for a session that is
registered but has left the Active state (`is_active = False`) moves it back
to Active: `process_audio_input` reactivates the session and reports success,
so sessions do not transition only forward. -/
theorem audio_frame_reactivation_counterexample :
    ((process_audio_input ⟨[⟨"s", "u", 0, false⟩], [("u", "s")], 10⟩ "s").1.active_sessions
        = [⟨"s", "u", 0, true⟩]) ∧
    ((process_audio_input ⟨[⟨"s", "u", 0, false⟩], [("u", "s")], 10⟩ "s").2 = true) := by
  decide

/-- C9 (amended): `process_audio_input` on a registered but inactive session
reactivates it — the call succeeds and the session's `is_active` flag is set
back to `true` — contrary to forward-only transitions.  (Unknown session ids
are rejected without any reactivation.) -/
theorem process_audio_input_reactivates (h : HandlerState) (sid : String)
    (info : SessionInfo)
    (hfind : h.active_sessions.find? (fun i => i.session_id == sid) = some info)
    (hinact : info.is_active = false) :
    (process_audio_input h sid).2 = true ∧
    ∀ j ∈ (process_audio_input h sid).1.active_sessions,
      j.session_id = sid → j.is_active = true := by
  have hpa : process_audio_input h sid
      = ({ h with active_sessions := (h.active_sessions.map (fun i =>
            if i.session_id == sid then { i with is_active := true } else i)) }, true) := by
    simp [process_audio_input, hfind, hinact]
  rw [hpa]
  refine ⟨rfl, ?_⟩
  intro j hj hjid
  rcases List.mem_map.mp hj with ⟨i, hi, hij⟩
  by_cases hii : (i.session_id == sid) = true
  · rw [if_pos hii] at hij
    rw [← hij]
  · rw [if_neg hii] at hij
    subst hij
    exact absurd (by simp [hjid]) hii

/-- C9 (witness): the amended claim at a concrete inactive session. -/
theorem process_audio_input_reactivates_witness :
    (process_audio_input ⟨[⟨"s2", "u", 0, false⟩], [], 10⟩ "s2").2 = true ∧
    ∀ j ∈ (process_audio_input ⟨[⟨"s2", "u", 0, false⟩], [], 10⟩ "s2").1.active_sessions,
      j.session_id = "s2" → j.is_active = true :=
  process_audio_input_reactivates ⟨[⟨"s2", "u", 0, false⟩], [], 10⟩ "s2"
    ⟨"s2", "u", 0, false⟩ (by decide) rfl

/-- C10: `close_session` deletes the closed session's user's `user_sessions`
entry without checking that it refers to the session being closed: closing a
registered session `s1` of user `u` leaves `get_user_session u = none`, while
every other registered session — in particular a second session of the same
user that the mapping pointed to — stays in `active_sessions`. -/
theorem close_session_clobbers_user_mapping (h : HandlerState) (u s1 : String)
    (info : SessionInfo)
    (hfind : h.active_sessions.find? (fun i => i.session_id == s1) = some info)
    (huser : info.user_id = u) (hu : u ≠ "") :
    get_user_session (close_session h s1).1 u = none ∧
    ∀ j ∈ h.active_sessions, j.session_id ≠ s1 →
      j ∈ (close_session h s1).1.active_sessions := by
  constructor
  · unfold get_user_session
    rw [close_session_found_users h s1 info hfind, huser]
    by_cases hany : h.user_sessions.any (fun p => p.1 == u) = true
    · rw [if_pos ⟨hu, hany⟩, find?_fst_filter]
      rfl
    · rw [if_neg (fun hc => hany hc.2)]
      have hnone : h.user_sessions.find? (fun p => p.1 == u) = none := by
        apply List.find?_eq_none.mpr
        intro x hx hpx
        exact hany (List.any_eq_true.mpr ⟨x, hx, hpx⟩)
      rw [hnone]
      rfl
  · intro j hj hne
    rw [close_session_found_active h s1 info hfind]
    exact List.mem_filter.mpr ⟨hj, by simp [hne]⟩

/-- C10 (witness): the concrete state of the claim — `u`'s mapping points to
`s2` while `s1` (same user) is also registered; closing `s1` erases the
mapping and keeps `s2` registered. -/
theorem close_session_clobbers_user_mapping_witness :
    get_user_session
        (close_session ⟨[⟨"s1", "u", 0, true⟩, ⟨"s2", "u", 1, true⟩], [("u", "s2")], 10⟩ "s1").1
        "u" = none ∧
    ∀ j ∈ ([⟨"s1", "u", 0, true⟩, ⟨"s2", "u", 1, true⟩] : List SessionInfo),
      j.session_id ≠ "s1" →
      j ∈ (close_session ⟨[⟨"s1", "u", 0, true⟩, ⟨"s2", "u", 1, true⟩], [("u", "s2")], 10⟩ "s1").1.active_sessions :=
  close_session_clobbers_user_mapping
    ⟨[⟨"s1", "u", 0, true⟩, ⟨"s2", "u", 1, true⟩], [("u", "s2")], 10⟩
    "u" "s1" ⟨"s1", "u", 0, true⟩ (by decide) rfl (by decide)

theorem select_candidate_eq_nil (x : Chunk) (xs : List Chunk)
    (h : (x :: xs).filter (fun c => 50 < c.text.length) = []) :
    select_candidate x xs = (pymax (fun c => c.text.length) x xs).text := by
  simp only [select_candidate, h]

theorem select_candidate_eq_cons (x : Chunk) (xs : List Chunk) (y : Chunk)
    (ys : List Chunk)
    (h : (x :: xs).filter (fun c => 50 < c.text.length) = y :: ys) :
    select_candidate x xs =
      (if 4 * (pymax (fun c => c.text.length) x xs).text.length
            ≤ 5 * (pymax (fun c => c.timestamp) y ys).text.length
       then (pymax (fun c => c.timestamp) y ys).text
       else (pymax (fun c => c.text.length) x xs).text) := by
  simp only [select_candidate, h]

/-- C4: at flush time on a non-empty buffer, the selected candidate is a
buffer entry of maximum length; except that when entries of length > 50 exist,
`most_recent_long` — the most recent of them, i.e. the one of maximal
timestamp — replaces the maximum-length candidate precisely when its length is
at least 80% of the candidate's (`4 * maxLen ≤ 5 * length`, the exact integer
form of `>= longest * 0.8`); otherwise a maximum-length entry is kept. -/
theorem flush_candidate_selection (x : Chunk) (xs : List Chunk) :
    (recent_long_transcripts (x :: xs) = [] →
      (∃ ch ∈ x :: xs, select_candidate x xs = ch.text) ∧
      (select_candidate x xs).length = maxLen (x :: xs)) ∧
    (∀ y ys, recent_long_transcripts (x :: xs) = y :: ys →
      (pymax (fun c => c.timestamp) y ys ∈ recent_long_transcripts (x :: xs) ∧
       ∀ z ∈ recent_long_transcripts (x :: xs),
         z.timestamp ≤ (pymax (fun c => c.timestamp) y ys).timestamp) ∧
      (4 * maxLen (x :: xs) ≤ 5 * (pymax (fun c => c.timestamp) y ys).text.length →
        select_candidate x xs = (pymax (fun c => c.timestamp) y ys).text) ∧
      (5 * (pymax (fun c => c.timestamp) y ys).text.length < 4 * maxLen (x :: xs) →
        (∃ ch ∈ x :: xs, select_candidate x xs = ch.text) ∧
        (select_candidate x xs).length = maxLen (x :: xs))) := by
  constructor
  · intro hempty
    rw [recent_long_transcripts] at hempty
    rw [select_candidate_eq_nil x xs hempty]
    exact ⟨⟨_, pymax_mem _ xs x, rfl⟩, pymax_len_eq x xs⟩
  · intro y ys hcons
    rw [recent_long_transcripts] at hcons
    refine ⟨⟨?_, ?_⟩, ?_, ?_⟩
    · rw [recent_long_transcripts, hcons]
      exact pymax_mem _ ys y
    · intro z hz
      rw [recent_long_transcripts, hcons] at hz
      exact le_pymax (fun c => c.timestamp) ys y z hz
    · intro hge
      have hcond : 4 * (pymax (fun c => c.text.length) x xs).text.length
          ≤ 5 * (pymax (fun c => c.timestamp) y ys).text.length := by
        rw [pymax_len_eq x xs]
        exact hge
      rw [select_candidate_eq_cons x xs y ys hcons, if_pos hcond]
    · intro hlt
      have hcond : ¬ (4 * (pymax (fun c => c.text.length) x xs).text.length
          ≤ 5 * (pymax (fun c => c.timestamp) y ys).text.length) := by
        rw [pymax_len_eq x xs]
        omega
      rw [select_candidate_eq_cons x xs y ys hcons, if_neg hcond]
      exact ⟨⟨_, pymax_mem _ xs x, rfl⟩, pymax_len_eq x xs⟩

/-- C4 (witness): a concrete two-entry buffer with no entry longer than 50
characters — the candidate is the maximum-length entry "Hello". -/
theorem flush_candidate_selection_witness :
    (∃ ch ∈ [Chunk.mk "Hello" 0, Chunk.mk "Hi" 1],
        select_candidate ⟨"Hello", 0⟩ [⟨"Hi", 1⟩] = ch.text) ∧
    (select_candidate ⟨"Hello", 0⟩ [⟨"Hi", 1⟩]).length
        = maxLen [⟨"Hello", 0⟩, ⟨"Hi", 1⟩] :=
  (flush_candidate_selection ⟨"Hello", 0⟩ [⟨"Hi", 1⟩]).1 (by decide)

theorem lastFrag_cons₂ (p q : ℤ × String) (rest : List (ℤ × String)) :
    lastFrag (p :: q :: rest) = lastFrag (q :: rest) := rfl

theorem getLast_eq_lastFrag (l : List (ℤ × String)) (hl : l ≠ []) :
    l.getLast hl = lastFrag l := by
  induction l with
  | nil => exact absurd rfl hl
  | cons a t ih =>
      cases t with
      | nil => rfl
      | cons b t2 =>
          rw [List.getLast_cons (by simp : (b :: t2) ≠ []), lastFrag_cons₂]
          exact ih (by simp)

theorem chain'_rel_of_mem {α : Type} {R : α → α → Prop}
    (htrans : ∀ a b c, R a b → R b c → R a c) (a : α) (t : List α)
    (hc : List.Chain' R (a :: t)) : ∀ b ∈ t, R a b := by
  induction t generalizing a with
  | nil =>
      intro b hb
      cases hb
  | cons c t2 ih =>
      intro b hb
      have hac : R a c := (List.chain'_cons.mp hc).1
      rcases List.mem_cons.mp hb with h1 | h1
      · exact h1 ▸ hac
      · exact htrans _ _ _ hac (ih c (List.chain'_cons.mp hc).2 b h1)

theorem chain'_pairwise {α : Type} {R : α → α → Prop}
    (htrans : ∀ a b c, R a b → R b c → R a c) :
    ∀ {l : List α}, List.Chain' R l → List.Pairwise R l := by
  intro l
  induction l with
  | nil => intro _; exact List.Pairwise.nil
  | cons a t ih =>
      intro hc
      rw [List.pairwise_cons]
      exact ⟨chain'_rel_of_mem htrans a t hc, ih hc.tail⟩

theorem chain'_and {α : Type} {R S : α → α → Prop} :
    ∀ {l : List α}, List.Chain' R l → List.Chain' S l →
      List.Chain' (fun a b => R a b ∧ S a b) l := by
  intro l
  induction l with
  | nil =>
      intro _ _
      simp
  | cons a t ih =>
      cases t with
      | nil =>
          intro _ _
          simp
      | cons b t2 =>
          intro hr hs
          rw [List.chain'_cons] at hr hs ⊢
          exact ⟨⟨hr.1, hs.1⟩, ih hr.2 hs.2⟩

/-- When one buffer entry strictly dominates every other entry in both length
and recency, `select_candidate` picks exactly that entry. -/
theorem select_candidate_dominant (x : Chunk) (xs : List Chunk) (c : Chunk)
    (hc : c ∈ x :: xs)
    (hdom : ∀ z ∈ x :: xs, z ≠ c →
      z.text.length < c.text.length ∧ z.timestamp < c.timestamp) :
    select_candidate x xs = c.text := by
  have hlongest : pymax (fun ch => ch.text.length) x xs = c := by
    by_contra hne2
    have h1 : c.text.length ≤ (pymax (fun ch => ch.text.length) x xs).text.length :=
      le_pymax (fun ch => ch.text.length) xs x c hc
    have h2 : (pymax (fun ch => ch.text.length) x xs).text.length < c.text.length :=
      (hdom _ (pymax_mem (fun ch => ch.text.length) xs x) hne2).1
    omega
  cases hfilter : (x :: xs).filter (fun ch => 50 < ch.text.length) with
  | nil =>
      rw [select_candidate_eq_nil x xs hfilter, hlongest]
  | cons y ys =>
      have hr_mem_filter : pymax (fun ch => ch.timestamp) y ys
          ∈ (x :: xs).filter (fun ch => 50 < ch.text.length) := by
        rw [hfilter]
        exact pymax_mem _ ys y
      have hr_mem : pymax (fun ch => ch.timestamp) y ys ∈ x :: xs :=
        (List.mem_filter.mp hr_mem_filter).1
      have hr_long : 50 < (pymax (fun ch => ch.timestamp) y ys).text.length := by
        have h2 := (List.mem_filter.mp hr_mem_filter).2
        simpa using h2
      have hrc : pymax (fun ch => ch.timestamp) y ys = c := by
        by_contra hne2
        have hclong : 50 < c.text.length := by
          have hlen := (hdom _ hr_mem hne2).1
          omega
        have hc_filter : c ∈ (x :: xs).filter (fun ch => 50 < ch.text.length) :=
          List.mem_filter.mpr ⟨hc, by simpa using hclong⟩
        rw [hfilter] at hc_filter
        have h1 : c.timestamp ≤ (pymax (fun ch => ch.timestamp) y ys).timestamp :=
          le_pymax (fun ch => ch.timestamp) ys y c hc_filter
        have h2 : (pymax (fun ch => ch.timestamp) y ys).timestamp < c.timestamp :=
          (hdom _ hr_mem hne2).2
        omega
      rw [select_candidate_eq_cons x xs y ys hfilter, hlongest, hrc, if_pos (by omega)]

/-- A flush with empty `last_transcript` and a non-empty candidate always
emits the candidate. -/
theorem consolidate_and_send_fresh (x : Chunk) (xs : List Chunk)
    (hne : select_candidate x xs ≠ "") :
    consolidate_and_send (x :: xs) ""
      = (some (select_candidate x xs), [], select_candidate x xs) := by
  have hred : consolidate_and_send (x :: xs) "" =
      (if select_candidate x xs = "" then (none, [], "")
       else if ("" : String) ≠ "" ∧ substrOf (select_candidate x xs).data ("" : String).data = true
       then (none, [], "")
       else (some (select_candidate x xs), [], select_candidate x xs)) := rfl
  rw [hred, if_neg hne, if_neg (by simp)]

theorem sched_run_single_tick_fire (s : ConsState) (T d : ℤ)
    (hd : s.consolidation_timer = some d) (hdT : d ≤ T) :
    sched_run s [SchedEvent.tick T] = fire_consolidation s := by
  have h1 : sched_step s (SchedEvent.tick T) = fire_consolidation s := by
    simp only [sched_step, hd]
    rw [if_pos hdT]
  rw [sched_run_cons, h1]
  simp [sched_run]

theorem fire_consolidation_emit (s : ConsState) (x : Chunk) (xs : List Chunk)
    (hbuf : s.transcript_buffer = x :: xs) (hlast : s.last_transcript = "")
    (hne : select_candidate x xs ≠ "") :
    fire_consolidation s
      = (⟨[], select_candidate x xs, none⟩,
         [OutMsg.transcript (select_candidate x xs)]) := by
  simp only [fire_consolidation, hbuf, hlast, consolidate_and_send_fresh x xs hne]
  rfl

/-- Re-pruning a 10 s window at a later instant absorbs the earlier pruning. -/
theorem filter_window_absorb (l Y : List Chunk) (t T : ℤ) (h : t ≤ T) :
    ((l.filter (fun c => t - c.timestamp < 10000)) ++ Y).filter
        (fun c => T - c.timestamp < 10000)
      = (l ++ Y).filter (fun c => T - c.timestamp < 10000) := by
  rw [List.filter_append, List.filter_append, List.filter_filter]
  congr 1
  apply List.filter_congr
  intro a ha
  by_cases hta : T - a.timestamp < 10000
  · have hpa : t - a.timestamp < 10000 := by omega
    simp [hta, hpa]
  · simp [hta]

/-- Running the consolidator over a gap-bounded fragment sequence (each
fragment arriving before the previous fragment's 1.5 s deadline, so every
interleaved timer check is a no-op): nothing is emitted, the buffer holds the
fragments pruned at the last arrival time, and the timer restarted by the last
fragment is pending. -/
theorem sched_run_consolidator_events :
    ∀ (rest : List (ℤ × String)) (p : ℤ × String),
      List.Chain' (fun a b => a.1 < b.1 ∧ b.1 < a.1 + 1500) (p :: rest) →
      ∀ (s : ConsState), (∀ d, s.consolidation_timer = some d → p.1 < d) →
      sched_run s (consolidator_events (p :: rest))
        = ({ transcript_buffer :=
               (s.transcript_buffer
                 ++ (p :: rest).map (fun x => Chunk.mk x.2 x.1)).filter
                 (fun c => (lastFrag (p :: rest)).1 - c.timestamp < 10000)
             last_transcript := s.last_transcript
             consolidation_timer := some ((lastFrag (p :: rest)).1 + 1500) }, []) := by
  intro rest
  induction rest with
  | nil =>
      intro p _ s htimer
      have hstep1 : sched_step s (SchedEvent.tick p.1) = (s, []) := by
        cases htm : s.consolidation_timer with
        | none => simp [sched_step, htm]
        | some d =>
            have hd := htimer d htm
            simp only [sched_step, htm]
            rw [if_neg (not_le.mpr hd)]
      rw [show consolidator_events [p]
            = [SchedEvent.tick p.1, SchedEvent.frag p.1 p.2] from rfl]
      rw [sched_run_cons, hstep1]
      rfl
  | cons q rest2 ih =>
      intro p hchain s htimer
      obtain ⟨hpq, htail⟩ := List.chain'_cons.mp hchain
      obtain ⟨hpq1, hpq2⟩ := hpq
      have hstep1 : sched_step s (SchedEvent.tick p.1) = (s, []) := by
        cases htm : s.consolidation_timer with
        | none => simp [sched_step, htm]
        | some d =>
            have hd := htimer d htm
            simp only [sched_step, htm]
            rw [if_neg (not_le.mpr hd)]
      have hl1 : sched_run s [SchedEvent.tick p.1, SchedEvent.frag p.1 p.2]
          = (process_transcript_with_buffering s p.1 p.2, []) := by
        rw [sched_run_cons, hstep1]
        rfl
      have hev : consolidator_events (p :: q :: rest2)
          = [SchedEvent.tick p.1, SchedEvent.frag p.1 p.2]
            ++ consolidator_events (q :: rest2) := rfl
      have htimer' : ∀ d,
          (process_transcript_with_buffering s p.1 p.2).consolidation_timer = some d →
          q.1 < d := by
        intro d hd
        have hd' : p.1 + 1500 = d := by
          simpa [process_transcript_with_buffering] using hd
        omega
      have hple : p.1 ≤ (lastFrag (q :: rest2)).1 := by
        have hlt : List.Chain' (fun a b : ℤ × String => a.1 < b.1) (p :: q :: rest2) :=
          hchain.imp (fun a b h => h.1)
        have h2 := @chain_lt_le_getLast (ℤ × String) (fun z => z.1) p (q :: rest2)
          (by simp) hlt
        rwa [getLast_eq_lastFrag] at h2
      rw [hev, sched_run_append]
      simp only [hl1, ih q htail (process_transcript_with_buffering s p.1 p.2) htimer',
                 List.nil_append, List.append_nil]
      simp only [process_transcript_with_buffering]
      rw [filter_window_absorb (s.transcript_buffer ++ [Chunk.mk p.2 p.1]) _ p.1 _ hple]
      simp [List.append_assoc, lastFrag_cons₂]

/-- C6: for a sequence of strictly-increasing-prefix fragments (cumulative
streaming) delivered to the consolidator with no prior emission, each arriving
within 1.5 s of the previous one (so that it cancels the pending timer and
restarts it — every interleaved timer check is a no-op), exactly one
`transcript` is emitted, equal to the final (longest) fragment, when the timer
restarted by the last fragment fires 1.5 s after it; no intermediate prefix is
ever emitted.  Times are in milliseconds. -/
theorem cumulative_streaming_single_transcript (frags : List (ℤ × String))
    (hne : frags ≠ [])
    (htimes : List.Chain' (fun a b => a.1 < b.1 ∧ b.1 < a.1 + 1500) frags)
    (hpre : List.Chain' (fun a b => a.2.data.isPrefixOf b.2.data = true ∧ a.2 ≠ b.2) frags)
    (hfrag_ne : ∀ x ∈ frags, x.2 ≠ "") :
    (sched_run initConsState
        (consolidator_events frags
          ++ [SchedEvent.tick ((frags.getLast hne).1 + 1500)])).2
      = [OutMsg.transcript (frags.getLast hne).2] := by
  cases frags with
  | nil => exact absurd rfl hne
  | cons p rest =>
      rw [getLast_eq_lastFrag _ hne]
      have hrun := sched_run_consolidator_events rest p htimes initConsState
        (by intro d hd; simp [initConsState] at hd)
      -- facts about the buffer at fire time
      have hlf_mem : lastFrag (p :: rest) ∈ p :: rest := by
        rw [← getLast_eq_lastFrag _ hne]
        exact List.getLast_mem hne
      have hmap_mem : Chunk.mk (lastFrag (p :: rest)).2 (lastFrag (p :: rest)).1
          ∈ (p :: rest).map (fun x => Chunk.mk x.2 x.1) :=
        List.mem_map.mpr ⟨lastFrag (p :: rest), hlf_mem, rfl⟩
      have hclast_mem : Chunk.mk (lastFrag (p :: rest)).2 (lastFrag (p :: rest)).1
          ∈ (initConsState.transcript_buffer
              ++ (p :: rest).map (fun x => Chunk.mk x.2 x.1)).filter
              (fun c => (lastFrag (p :: rest)).1 - c.timestamp < 10000) := by
        refine List.mem_filter.mpr ⟨hmap_mem, decide_eq_true ?_⟩
        show (lastFrag (p :: rest)).1 - (lastFrag (p :: rest)).1 < 10000
        omega
      have hlen_chain : List.Chain'
          (fun a b : ℤ × String => a.2.length < b.2.length) (p :: rest) :=
        hpre.imp (fun a b h =>
          isPrefixOf_length_lt h.1 (fun hd => h.2 (String.ext hd)))
      have htime_chain : List.Chain'
          (fun a b : ℤ × String => a.1 < b.1) (p :: rest) :=
        htimes.imp (fun a b h => h.1)
      have hpw : List.Pairwise
          (fun a b : ℤ × String => a.1 < b.1 ∧ a.2.length < b.2.length) (p :: rest) :=
        chain'_pairwise (fun a b c h1 h2 => ⟨lt_trans h1.1 h2.1, lt_trans h1.2 h2.2⟩)
          (chain'_and htime_chain hlen_chain)
      have hpw_chunks : List.Pairwise
          (fun z w : Chunk => z.timestamp < w.timestamp ∧ z.text.length < w.text.length)
          ((p :: rest).map (fun x => Chunk.mk x.2 x.1)) := by
        rw [List.pairwise_map]
        exact hpw
      have hmap_ne : (p :: rest).map (fun x => Chunk.mk x.2 x.1) ≠ [] := by simp
      have hlast_map : ((p :: rest).map (fun x => Chunk.mk x.2 x.1)).getLast hmap_ne
          = Chunk.mk (lastFrag (p :: rest)).2 (lastFrag (p :: rest)).1 := by
        rw [List.getLast_map]
        rw [getLast_eq_lastFrag]
      have hdomM : ∀ z ∈ (p :: rest).map (fun x => Chunk.mk x.2 x.1),
          z ≠ Chunk.mk (lastFrag (p :: rest)).2 (lastFrag (p :: rest)).1 →
          z.text.length
              < (Chunk.mk (lastFrag (p :: rest)).2 (lastFrag (p :: rest)).1).text.length ∧
          z.timestamp
              < (Chunk.mk (lastFrag (p :: rest)).2 (lastFrag (p :: rest)).1).timestamp := by
        intro z hz hzne
        have hzl := pairwise_rel_getLast _ hmap_ne hpw_chunks z hz
        rw [hlast_map] at hzl
        rcases hzl with h1 | h1
        · exact absurd h1 hzne
        · exact ⟨h1.2, h1.1⟩
      have hdomB : ∀ z ∈ (initConsState.transcript_buffer
              ++ (p :: rest).map (fun x => Chunk.mk x.2 x.1)).filter
              (fun c => (lastFrag (p :: rest)).1 - c.timestamp < 10000),
          z ≠ Chunk.mk (lastFrag (p :: rest)).2 (lastFrag (p :: rest)).1 →
          z.text.length
              < (Chunk.mk (lastFrag (p :: rest)).2 (lastFrag (p :: rest)).1).text.length ∧
          z.timestamp
              < (Chunk.mk (lastFrag (p :: rest)).2 (lastFrag (p :: rest)).1).timestamp :=
        fun z hz hzne => hdomM z (List.mem_filter.mp hz).1 hzne
      -- run the fragments, then fire the last timer
      rw [sched_run_append, hrun]
      simp only [List.nil_append]
      rw [sched_run_single_tick_fire _ _ ((lastFrag (p :: rest)).1 + 1500) rfl le_rfl]
      rcases hB : (initConsState.transcript_buffer
              ++ (p :: rest).map (fun x => Chunk.mk x.2 x.1)).filter
              (fun c => (lastFrag (p :: rest)).1 - c.timestamp < 10000) with _ | ⟨x, xs⟩
      · rw [hB] at hclast_mem
        cases hclast_mem
      · have hsel : select_candidate x xs
            = (Chunk.mk (lastFrag (p :: rest)).2 (lastFrag (p :: rest)).1).text := by
          apply select_candidate_dominant
          · rw [hB] at hclast_mem
            exact hclast_mem
          · intro z hz hzne
            apply hdomB z _ hzne
            rw [hB]
            exact hz
        have hselne : select_candidate x xs ≠ "" := by
          rw [hsel]
          exact hfrag_ne _ hlf_mem
        rw [hB]
        rw [fire_consolidation_emit _ x xs rfl rfl hselne]
        rw [hsel]

/-- C6 (witness): fragments "Hi" (at 0 ms) and "Hi there" (at 1000 ms) produce
exactly one transcript, "Hi there", at 2500 ms. -/
theorem cumulative_streaming_single_transcript_witness :
    (sched_run initConsState
        (consolidator_events [((0 : ℤ), "Hi"), (1000, "Hi there")]
          ++ [SchedEvent.tick 2500])).2
      = [OutMsg.transcript "Hi there"] :=
  cumulative_streaming_single_transcript [((0 : ℤ), "Hi"), (1000, "Hi there")]
    (by simp) (by rw [List.chain'_pair]; decide) (by rw [List.chain'_pair]; decide)
    (by decide)

end VoiceChat
